import Mathlib

/-!
# IntegralTurbo: the formula catalog of `assets/js/app.js`

A shallow embedding of the catalog script: its global variables, the part of
the page it writes to, and the functions `loadFormulas`, `applyFilters`,
`renderFormulas`, `updateResultsCount`, `toggleShowMore`, `handleFilterClick`,
`handleSearch`, `escapeHtml`, `showError` and `initializeApp`.

Modelling conventions

* A JavaScript string is a list of characters (`JsString`).
* `String.prototype.toLowerCase` is not re-implemented: every definition that
  calls it takes the lower-casing function as its first argument, so general
  theorems hold for every such function.  Concrete scenarios use
  `asciiLowerCase`, which is what `toLowerCase` does on ASCII text.
* Numbers held by the script (`displayedCount`, lengths, indices) are natural
  numbers; the script only ever stores `6` in `displayedCount`.
* A formula record is typed (`Formula`): the dataset is taken to hold
  well-formed records.  What may be ill-formed is the value found under the key
  `formulas`, which is why `allFormulas` is a `JsValue`.
* A handler that throws keeps the assignments made before the throw
  (`Completion.thrown`).
* The page holds the elements the script looks up by id, so no lookup throws.
* What a piece of markup shows is read off it by `shownTitles`, which collects
  the text of the card titles in document order.
* Styling, scrolling, timers, the typesetting engine, the counter animation,
  the `active` class of the filter buttons and the navigation listeners do not
  touch the modelled part of the page and are left out.
-/

namespace IntegralTurbo

/-! ## Strings -/

/-- A JavaScript string, as the list of its characters. -/
abbrev JsString := List Char

/-- Decimal rendering of a number inside a template literal. -/
def numberToString (n : Nat) : JsString := Nat.toDigits 10 n

/-- The method `String.prototype.includes`: is `search` found at some position
of `s`?  The empty string is found in every string. -/
def includes : JsString → JsString → Bool
  | [], search => search.isPrefixOf []
  | c :: cs, search => search.isPrefixOf (c :: cs) || includes cs search

/-- The characters `String.prototype.trim` strips: ECMAScript white space and
line terminators. -/
def isTrimChar (c : Char) : Bool :=
  let n := c.toNat
  n = 0x09 || n = 0x0A || n = 0x0B || n = 0x0C || n = 0x0D || n = 0x20 ||
  n = 0xA0 || n = 0x1680 || (0x2000 ≤ n && n ≤ 0x200A) || n = 0x2028 ||
  n = 0x2029 || n = 0x202F || n = 0x205F || n = 0x3000 || n = 0xFEFF

/-- The method `String.prototype.trim`: white space is dropped at both ends. -/
def trim (s : JsString) : JsString :=
  ((s.dropWhile isTrimChar).reverse.dropWhile isTrimChar).reverse

/-- What `toLowerCase` does to an ASCII character. -/
def asciiLowerChar (c : Char) : Char :=
  if 65 ≤ c.toNat ∧ c.toNat ≤ 90 then Char.ofNat (c.toNat + 32) else c

/-- The `toLowerCase` of ASCII text. -/
def asciiLowerCase (s : JsString) : JsString := s.map asciiLowerChar

/-- A lower-casing function that agrees with `toLowerCase` on ASCII text. -/
def LowersAscii (toLowerCase : JsString → JsString) : Prop :=
  ∀ s : JsString, (∀ c ∈ s, c.toNat < 128) → toLowerCase s = asciiLowerCase s

/-! ## `escapeHtml` -/

/-- The object `map` of `escapeHtml`: the replacement of each character the
regular expression `[&<>"']` matches, `none` for a character it does not match. -/
def escapeMap (c : Char) : Option JsString :=
  if c = '&' then some "&amp;".toList
  else if c = '<' then some "&lt;".toList
  else if c = '>' then some "&gt;".toList
  else if c = '"' then some "&quot;".toList
  else if c = '\'' then some "&#039;".toList
  else none

/-- The function `escapeHtml`: a global replace of every match of `[&<>"']` by its entry in
`map`; the other characters are copied. -/
def escapeHtml : JsString → JsString
  | [] => []
  | c :: cs =>
    (match escapeMap c with
     | some entity => entity
     | none => [c]) ++ escapeHtml cs

/-- The five entities `escapeHtml` can write. -/
def entities : List JsString :=
  ["&amp;".toList, "&lt;".toList, "&gt;".toList, "&quot;".toList, "&#039;".toList]

/-! ## Records, filters and the page -/

/-- One record of the dataset. -/
structure Formula where
  title : JsString
  subject : JsString
  levels : List JsString
  chapter : JsString
  keywords : List JsString
  description : JsString
  formula : JsString
  image : Option JsString
  pdfLink : Option JsString
  deriving DecidableEq

/-- The object `currentFilters`. -/
structure Filters where
  subject : JsString
  level : JsString
  search : JsString
  deriving DecidableEq

/-- What the global `allFormulas` can hold: it is assigned `data.formulas`
unchecked, so besides an array it can be `undefined`, `null`, or some other
value (a number, a string, a boolean, a plain object).  Of such a value only
its property `length` is ever read: a number for a string, `undefined` (here
`none`) for the rest. -/
inductive JsValue where
  | undefined
  | null
  | array (records : List Formula)
  | other (length : Option Nat)
  deriving DecidableEq

/-- The elements of the page the script writes to. -/
structure Dom where
  /-- The `innerHTML` of `#formulasContainer`. -/
  formulasContainer : JsString
  /-- Does `#noResults` carry the class `hidden`? -/
  noResultsHidden : Bool
  /-- Does `#showMoreContainer` carry the class `hidden`? -/
  showMoreContainerHidden : Bool
  /-- The `textContent` of `#resultsCount`. -/
  resultsCount : JsString
  /-- The text of the first `span` of `#showMoreBtn`. -/
  showMoreBtnText : JsString
  /-- Does `#showMoreBtn` carry the class `expanded`? -/
  showMoreBtnExpanded : Bool
  deriving DecidableEq

/-- The global variables of the script together with the page. -/
structure State where
  allFormulas : JsValue
  filteredFormulas : List Formula
  displayedCount : Nat
  showingAll : Bool
  currentFilters : Filters
  dom : Dom
  deriving DecidableEq

/-- The globals as the script declares them, over a page `dom`. -/
def initialState (dom : Dom) : State :=
  { allFormulas := .array []
    filteredFormulas := []
    displayedCount := 6
    showingAll := false
    currentFilters := { subject := "all".toList, level := "all".toList, search := [] }
    dom := dom }

/-- How a call ends: normally, or by a thrown exception; either way the
assignments made so far stay. -/
inductive Completion where
  | normal (s : State)
  | thrown (s : State)
  deriving DecidableEq

/-- The state a call leaves behind. -/
def Completion.state : Completion → State
  | .normal s => s
  | .thrown s => s

/-! ## `applyFilters`: the callback -/

/-- The `matchesSubject` of the callback. -/
def matchesSubject (f : Filters) (formula : Formula) : Bool :=
  f.subject == "all".toList || formula.subject == f.subject

/-- The `matchesLevel` of the callback; `levels.includes` is array membership. -/
def matchesLevel (f : Filters) (formula : Formula) : Bool :=
  f.level == "all".toList || formula.levels.contains f.level

/-- The `matchesSearch` of the callback. -/
def matchesSearch (toLowerCase : JsString → JsString) (f : Filters) (formula : Formula) : Bool :=
  f.search == [] ||
  includes (toLowerCase formula.title) f.search ||
  includes (toLowerCase formula.chapter) f.search ||
  formula.keywords.any (fun kw => includes (toLowerCase kw) f.search) ||
  includes (toLowerCase formula.description) f.search

/-- The callback `applyFilters` hands to `Array.prototype.filter`. -/
def filterCallback (toLowerCase : JsString → JsString) (f : Filters) (formula : Formula) : Bool :=
  matchesSubject f formula && matchesLevel f formula && matchesSearch toLowerCase f formula

/-! ## Rendering -/

/-- The method `Array.prototype.join` with the empty separator. -/
def join : List JsString → JsString
  | [] => []
  | piece :: pieces => piece ++ join pieces

/-- The method `Array.prototype.join` with a separator. -/
def joinWith (separator : JsString) : List JsString → JsString
  | [] => []
  | [piece] => piece
  | piece :: pieces => piece ++ separator ++ joinWith separator pieces

/-- The tag written for one level of a record. -/
def levelTag (level : JsString) : JsString :=
  join [
    "<span class=\"tag tag-level\">".toList,
    escapeHtml level,
    "</span>".toList
  ]

/-- The image of a card: written only when `formula.image` is truthy, that is
present and not the empty string. -/
def imageHtml (formula : Formula) : JsString :=
  match formula.image with
  | none => []
  | some image =>
    if image = [] then [] else
    join [
      "\n".toList,
      "                <img \n".toList,
      "                    src=\"".toList,
      escapeHtml image,
      "\" \n".toList,
      "                    alt=\"".toList,
      escapeHtml formula.title,
      " diagram\" \n".toList,
      "                    class=\"card-image\"\n".toList,
      "                    loading=\"lazy\"\n".toList,
      "                    onerror=\"this.style.display='none'\"\n".toList,
      "                >\n".toList,
      "            ".toList
    ]

/-- The download link of a card: written only when `formula.pdfLink` is truthy. -/
def pdfHtml (formula : Formula) : JsString :=
  match formula.pdfLink with
  | none => []
  | some pdfLink =>
    if pdfLink = [] then [] else
    join [
      "\n".toList,
      "                    <a href=\"".toList,
      escapeHtml pdfLink,
      "\" \n".toList,
      "                       class=\"btn btn-primary\" \n".toList,
      "                       download\n".toList,
      "                       aria-label=\"Download PDF for ".toList,
      escapeHtml formula.title,
      "\">\n".toList,
      "                        \uf8ff\u00fc\u00ec\u2022 Download PDF\n".toList,
      "                    </a>\n".toList,
      "                ".toList
    ]

/-- The template literal `renderFormulas` maps over the records to show. -/
def card (formula : Formula) (index : Nat) : JsString :=
  join [
    "\n".toList,
    "        <article class=\"formula-card\" data-index=\"".toList,
    numberToString index,
    "\" role=\"article\">\n".toList,
    "            <div class=\"card-header\">\n".toList,
    "                <h3 class=\"card-title\">".toList,
    escapeHtml formula.title,
    "</h3>\n".toList,
    "                <div class=\"card-tags\">\n".toList,
    "                    <span class=\"tag tag-subject\">".toList,
    escapeHtml formula.subject,
    "</span>\n".toList,
    "                    ".toList,
    join (formula.levels.map levelTag),
    "\n".toList,
    "                </div>\n".toList,
    "            </div>\n".toList,
    "            \n".toList,
    "            <div class=\"card-formula katex-formula\" data-formula=\"".toList,
    escapeHtml formula.formula,
    "\">\n".toList,
    "                ".toList,
    escapeHtml formula.formula,
    "\n".toList,
    "            </div>\n".toList,
    "            \n".toList,
    "            ".toList,
    imageHtml formula,
    "\n".toList,
    "            \n".toList,
    "            <p class=\"card-description\">".toList,
    escapeHtml formula.description,
    "</p>\n".toList,
    "            \n".toList,
    "            <div class=\"card-expandable\" id=\"expandable-".toList,
    numberToString index,
    "\">\n".toList,
    "                <div class=\"card-details\">\n".toList,
    "                    <div class=\"detail-item\">\n".toList,
    "                        <span class=\"detail-label\">Chapter:</span> \n".toList,
    "                        ".toList,
    escapeHtml formula.chapter,
    "\n".toList,
    "                    </div>\n".toList,
    "                    <div class=\"detail-item\">\n".toList,
    "                        <span class=\"detail-label\">Keywords:</span> \n".toList,
    "                        ".toList,
    joinWith ", ".toList (formula.keywords.map escapeHtml),
    "\n".toList,
    "                    </div>\n".toList,
    "                </div>\n".toList,
    "            </div>\n".toList,
    "            \n".toList,
    "            <div class=\"card-actions\">\n".toList,
    "                ".toList,
    pdfHtml formula,
    "\n".toList,
    "                <button class=\"btn btn-secondary expand-btn\" \n".toList,
    "                        data-target=\"expandable-".toList,
    numberToString index,
    "\"\n".toList,
    "                        aria-expanded=\"false\"\n".toList,
    "                        aria-controls=\"expandable-".toList,
    numberToString index,
    "\">\n".toList,
    "                    \uf8ff\u00fc\u00eb\u00c5\u00d4\u220f\u00e8 Details\n".toList,
    "                </button>\n".toList,
    "            </div>\n".toList,
    "        </article>\n".toList,
    "    ".toList
  ]

/-- The `map((formula, index) => ...)` of `renderFormulas`, counting from `index`. -/
def cardsFrom (index : Nat) : List Formula → List JsString
  | [] => []
  | formula :: rest => card formula index :: cardsFrom (index + 1) rest

/-- The markup `renderFormulas` writes for the records `shown`. -/
def cardsHtml (shown : List Formula) : JsString := join (cardsFrom 0 shown)

/-- The `formulasToShow` of `renderFormulas`; `slice(0, n)` keeps the first `n`. -/
def formulasToShow (s : State) : List Formula :=
  if s.showingAll then s.filteredFormulas else s.filteredFormulas.take s.displayedCount

/-- The function `renderFormulas`: on an empty filtered list it empties the
container, shows the no-results state and hides the show-more control; else it
hides the no-results state, hides the show-more control exactly when the
filtered list is no longer than `displayedCount`, and writes the cards. -/
def renderFormulas (s : State) : State :=
  if s.filteredFormulas.length = 0 then
    { s with dom := { s.dom with
        formulasContainer := []
        noResultsHidden := false
        showMoreContainerHidden := true } }
  else
    { s with dom := { s.dom with
        noResultsHidden := true
        showMoreContainerHidden := decide (s.filteredFormulas.length ≤ s.displayedCount)
        formulasContainer := cardsHtml (formulasToShow s) } }

/-- Reading the property `length` of a value: `none` when the read throws (the
value is `undefined` or `null`), else the value read, itself `none` when it is
`undefined`. -/
def lengthOf : JsValue → Option (Option Nat)
  | .undefined => none
  | .null => none
  | .array records => some (some records.length)
  | .other length => some length

/-- A value read from `length`, inside a template literal. -/
def lengthToString : Option Nat → JsString
  | some n => numberToString n
  | none => "undefined".toList

/-- The text `updateResultsCount` builds. -/
def resultsCountText (displayedCount count : Nat) (total : Option Nat) : JsString :=
  join [
    "Showing ".toList,
    numberToString (min displayedCount count),
    " of ".toList,
    numberToString count,
    " formulas (".toList,
    lengthToString total,
    " total)".toList
  ]

/-- The function `updateResultsCount`; the read of `allFormulas.length` throws on
`undefined` and `null`. -/
def updateResultsCount (s : State) : Completion :=
  match lengthOf s.allFormulas with
  | none => .thrown s
  | some total =>
    .normal { s with dom := { s.dom with
      resultsCount := resultsCountText s.displayedCount s.filteredFormulas.length total } }

/-- The function `applyFilters`: `allFormulas.filter` exists only on an array; on another
value the call throws before anything is assigned. -/
def applyFilters (toLowerCase : JsString → JsString) (s : State) : Completion :=
  match s.allFormulas with
  | .array records =>
    updateResultsCount (renderFormulas
      { s with filteredFormulas := records.filter (filterCallback toLowerCase s.currentFilters) })
  | _ => .thrown s

/-! ## Handlers -/

/-- The function `toggleShowMore`: flip `showingAll`, render, relabel the button. -/
def toggleShowMore (s : State) : State :=
  let s1 := renderFormulas { s with showingAll := !s.showingAll }
  if s1.showingAll then
    { s1 with dom := { s1.dom with
        showMoreBtnText := "Show Less".toList, showMoreBtnExpanded := true } }
  else
    { s1 with dom := { s1.dom with
        showMoreBtnText := "Show More Formulas".toList, showMoreBtnExpanded := false } }

/-- The assignment `currentFilters[filterType] = filterValue`: a key that is
none of the three fields adds a property no code reads. -/
def setFilter (f : Filters) (filterType filterValue : JsString) : Filters :=
  if filterType = "subject".toList then { f with subject := filterValue }
  else if filterType = "level".toList then { f with level := filterValue }
  else if filterType = "search".toList then { f with search := filterValue }
  else f

/-- The handler `handleFilterClick`, for a button whose `data-filter` is `filterType` and
whose `data-value` is `filterValue`. -/
def handleFilterClick (toLowerCase : JsString → JsString) (filterType filterValue : JsString)
    (s : State) : Completion :=
  applyFilters toLowerCase
    { s with
      currentFilters := setFilter s.currentFilters filterType filterValue
      showingAll := false
      displayedCount := 6 }

/-- The handler `handleSearch`, for an input whose `value` is `value`. -/
def handleSearch (toLowerCase : JsString → JsString) (value : JsString) (s : State) : Completion :=
  applyFilters toLowerCase
    { s with
      currentFilters := { s.currentFilters with search := trim (toLowerCase value) }
      showingAll := false
      displayedCount := 6 }

/-! ## Loading -/

/-- The markup `showError` writes. -/
def errorHtml (message : JsString) : JsString :=
  join [
    "\n".toList,
    "        <div style=\"text-align: center; padding: 2rem; color: #ef4444;\">\n".toList,
    "            <h3>\u201a\u00f6\u2020\u00d4\u220f\u00e8 Error</h3>\n".toList,
    "            <p>".toList,
    escapeHtml message,
    "</p>\n".toList,
    "        </div>\n".toList,
    "    ".toList
  ]

/-- The function `showError`: the container gets the error markup. -/
def showError (message : JsString) (s : State) : State :=
  { s with dom := { s.dom with formulasContainer := errorHtml message } }

/-- The value `response.json()` resolves to, seen through the one thing the
script does with it, the read of its property `formulas`: on `null` the read
throws, on every other value it gives a value (`undefined` when there is no
such property). -/
inductive Decoded where
  | null
  | value (formulas : JsValue)
  deriving DecidableEq

/-- The body of a response: text that does not decode, or decoded data. -/
inductive Body where
  | undecodable
  | json (data : Decoded)
  deriving DecidableEq

/-- How `fetch('data/formulas.json')` ends. -/
inductive FetchResult where
  | rejected
  | response (ok : Bool) (body : Body)
  deriving DecidableEq

/-- The message of the `catch` block of `loadFormulas`. -/
def loadErrorMessage : JsString := "Failed to load formulas. Please refresh the page.".toList

/-- The function `loadFormulas`: every throw inside the `try` block lands in the `catch`
block, which calls `showError`.  The throws are: `fetch` rejects, the status is
not ok, the body does not decode, the read `data.formulas` on `null`, and the
read `allFormulas.length` in the log line, which comes after the assignment. -/
def loadFormulas (r : FetchResult) (s : State) : State :=
  match r with
  | .rejected => showError loadErrorMessage s
  | .response false _ => showError loadErrorMessage s
  | .response true .undecodable => showError loadErrorMessage s
  | .response true (.json .null) => showError loadErrorMessage s
  | .response true (.json (.value formulas)) =>
    let s1 := { s with allFormulas := formulas }
    match lengthOf formulas with
    | none => showError loadErrorMessage s1
    | some _ => s1

/-- The function `initializeApp`: `loadFormulas`, then `applyFilters`.  The calls before and
after `applyFilters` register listeners, typeset and animate. -/
def initializeApp (toLowerCase : JsString → JsString) (r : FetchResult) (s : State) : Completion :=
  applyFilters toLowerCase (loadFormulas r s)

/-- Did `loadFormulas` fail, that is, reach its `catch` block? -/
def loadFails : FetchResult → Bool
  | .rejected => true
  | .response false _ => true
  | .response true .undecodable => true
  | .response true (.json .null) => true
  | .response true (.json (.value formulas)) => (lengthOf formulas).isNone

/-! ## The filter, in the words of the specification -/

/-- The search predicate as specified: the search text is empty, or it is a
substring of the lower-cased title, chapter, some keyword, or description. -/
def SpecSearchMatch (toLowerCase : JsString → JsString) (search : JsString)
    (record : Formula) : Prop :=
  search = [] ∨
  search <:+: toLowerCase record.title ∨
  search <:+: toLowerCase record.chapter ∨
  (∃ kw ∈ record.keywords, search <:+: toLowerCase kw) ∨
  search <:+: toLowerCase record.description

/-- The inclusion rule as specified: all three predicates pass. -/
def SpecIncluded (toLowerCase : JsString → JsString) (f : Filters) (record : Formula) : Prop :=
  (f.subject = "all".toList ∨ record.subject = f.subject) ∧
  (f.level = "all".toList ∨ f.level ∈ record.levels) ∧
  SpecSearchMatch toLowerCase f.search record

/-- First record of the scenario dataset. -/
def newton : Formula :=
  { title := "Newton's Second Law".toList
    subject := "physics".toList
    levels := ["high-school".toList]
    chapter := "Mechanics".toList
    keywords := ["force".toList, "mass".toList]
    description := "F=ma".toList
    formula := "F=ma".toList
    image := none
    pdfLink := none }

/-- Second record of the scenario dataset. -/
def quadratic : Formula :=
  { title := "Quadratic Formula".toList
    subject := "math".toList
    levels := ["high-school".toList, "college".toList]
    chapter := "Algebra".toList
    keywords := ["roots".toList]
    description := "solves ax^2+bx+c=0".toList
    formula := "x=(-b±√(b²-4ac))/2a".toList
    image := none
    pdfLink := none }

/-- The two-record dataset of the scenario. -/
def scenarioDataset : List Formula := [newton, quadratic]

/-- A page before the script has written to it. -/
def blankPage : Dom :=
  { formulasContainer := []
    noResultsHidden := true
    showMoreContainerHidden := true
    resultsCount := []
    showMoreBtnText := "Show More Formulas".toList
    showMoreBtnExpanded := false }

/-- A state whose filtered list holds ten records, as in the pagination
scenario. -/
def tenFiltered : State :=
  { initialState blankPage with
    allFormulas := .array (List.replicate 10 newton)
    filteredFormulas := List.replicate 10 newton }

/-- A dataset of seven records, one more than a page shows. -/
def sevenRecords : List Formula := List.replicate 7 newton

/-- A response that is ok and decodes to an object holding the array `records`
under the key `formulas`. -/
def okResponse (records : List Formula) : FetchResult :=
  .response true (.json (.value (.array records)))

/-- A response that is ok and decodes to an object without the key `formulas`,
such as the JSON text of an empty object. -/
def noListResponse : FetchResult :=
  .response true (.json (.value .undefined))

/-! ## Reading the page -/

/-- The opening tag of the title of a card, as `card` writes it. -/
def titleOpen : JsString := "<h3 class=\"card-title\">".toList

/-- A reader of markup: the text of every element that opens with `titleOpen`,
in document order; the text of an element runs up to the next `<`.  It tells
which records a piece of markup shows, and in which order. -/
def shownTitles : JsString → List JsString
  | [] => []
  | c :: cs =>
    if titleOpen.isPrefixOf (c :: cs) then
      ((c :: cs).drop titleOpen.length).takeWhile (fun x => x != '<') :: shownTitles cs
    else shownTitles cs

/-- Do a marker and a text differ at a position both have? -/
def clash : JsString → JsString → Bool
  | m :: ms, c :: cs => m != c || clash ms cs
  | _, _ => false

/-- A block of markup in which no title can start, whatever follows it: each
of its suffixes differs from `titleOpen` inside the block. -/
def inert : JsString → Bool
  | [] => true
  | c :: cs => clash titleOpen (c :: cs) && inert cs

/-- A record of the pagination scenario, told from the others by its title. -/
def numbered (k : Nat) : Formula :=
  { newton with title := "Formula ".toList ++ numberToString k }

/-- A state whose filtered list holds ten records with ten different titles. -/
def tenDistinct : State :=
  { initialState blankPage with
    allFormulas := .array ((List.range 10).map numbered)
    filteredFormulas := (List.range 10).map numbered }

/-! ## Lemmas on strings -/

theorem includes_iff (s search : JsString) : includes s search = true ↔ search <:+: s := by
  induction s with
  | nil =>
    simp only [includes, List.isPrefixOf_iff_prefix, List.infix_nil, List.prefix_nil]
  | cons c cs ih =>
    simp only [includes, Bool.or_eq_true, List.isPrefixOf_iff_prefix, ih, List.infix_cons_iff]

theorem escapeMap_some_mem {c : Char} {e : JsString} (h : escapeMap c = some e) :
    e ∈ entities := by
  unfold escapeMap at h
  split_ifs at h <;> simp_all [entities]

theorem escapeMap_none {c : Char} (h : escapeMap c = none) :
    c ≠ '&' ∧ c ≠ '<' ∧ c ≠ '>' ∧ c ≠ '"' ∧ c ≠ '\'' := by
  unfold escapeMap at h
  split_ifs at h
  exact ⟨by assumption, by assumption, by assumption, by assumption, by assumption⟩

/-- An entity is `&` followed by characters that are none of `& < > " '`. -/
theorem entity_shape {e : JsString} (h : e ∈ entities) :
    ∃ tail, e = '&' :: tail ∧
      ∀ c ∈ tail, c ≠ '&' ∧ c ≠ '<' ∧ c ≠ '>' ∧ c ≠ '"' ∧ c ≠ '\'' := by
  simp only [entities, List.mem_cons, List.mem_singleton, List.not_mem_nil, or_false] at h
  rcases h with h | h | h | h | h <;> subst h
  · exact ⟨"amp;".toList, rfl, by decide⟩
  · exact ⟨"lt;".toList, rfl, by decide⟩
  · exact ⟨"gt;".toList, rfl, by decide⟩
  · exact ⟨"quot;".toList, rfl, by decide⟩
  · exact ⟨"#039;".toList, rfl, by decide⟩

/-- An `&` found behind a block free of `&` lies in what follows the block. -/
theorem amp_after_block {block rest pre post : JsString} (hb : ∀ c ∈ block, c ≠ '&')
    (h : block ++ rest = pre ++ '&' :: post) : ∃ pre', rest = pre' ++ '&' :: post := by
  induction block generalizing pre with
  | nil => exact ⟨pre, h⟩
  | cons b bs ih =>
    cases pre with
    | nil =>
      simp only [List.cons_append, List.nil_append, List.cons.injEq] at h
      exact absurd h.1 (hb b (List.mem_cons_self _ _))
    | cons p ps =>
      simp only [List.cons_append, List.cons.injEq] at h
      exact ih (fun c hc => hb c (List.mem_cons_of_mem _ hc)) h.2

/-- Every `&` of the output of `escapeHtml` starts an entity. -/
theorem escapeHtml_amp (text pre post : JsString) (h : escapeHtml text = pre ++ '&' :: post) :
    ∃ e ∈ entities, e <+: '&' :: post := by
  induction text generalizing pre with
  | nil => simp [escapeHtml] at h
  | cons c cs ih =>
    rw [escapeHtml] at h
    cases hm : escapeMap c with
    | none =>
      rw [hm] at h
      have hc := (escapeMap_none hm).1
      have hblock : ∀ x ∈ [c], x ≠ '&' := by simpa using hc
      obtain ⟨pre', h'⟩ := amp_after_block hblock h
      exact ih pre' h'
    | some e =>
      rw [hm] at h
      have he := escapeMap_some_mem hm
      obtain ⟨tail, rfl, htail⟩ := entity_shape he
      cases pre with
      | nil =>
        simp only [List.cons_append, List.nil_append, List.cons.injEq, true_and] at h
        exact ⟨'&' :: tail, he, by rw [← h]; exact List.prefix_append _ _⟩
      | cons p ps =>
        simp only [List.cons_append, List.cons.injEq] at h
        obtain ⟨pre', h'⟩ := amp_after_block (fun c hc => (htail c hc).1) h.2
        exact ih pre' h'

/-- The output of `escapeHtml` holds none of `< > " '`. -/
theorem escapeHtml_clean (text : JsString) :
    ∀ c ∈ escapeHtml text, c ≠ '<' ∧ c ≠ '>' ∧ c ≠ '"' ∧ c ≠ '\'' := by
  induction text with
  | nil => simp [escapeHtml]
  | cons c cs ih =>
    intro x hx
    rw [escapeHtml, List.mem_append] at hx
    rcases hx with hx | hx
    · cases hm : escapeMap c with
      | none =>
        rw [hm] at hx
        have := escapeMap_none hm
        simp only [List.mem_singleton] at hx
        subst hx
        exact this.2
      | some e =>
        rw [hm] at hx
        obtain ⟨tail, rfl, htail⟩ := entity_shape (escapeMap_some_mem hm)
        rcases List.mem_cons.1 hx with hx | hx
        · subst hx; decide
        · exact (htail x hx).2
    · exact ih x hx

theorem filterCallback_iff (toLowerCase : JsString → JsString) (f : Filters) (record : Formula) :
    filterCallback toLowerCase f record = true ↔ SpecIncluded toLowerCase f record := by
  simp only [filterCallback, matchesSubject, matchesLevel, matchesSearch, SpecIncluded,
    SpecSearchMatch, Bool.and_eq_true, Bool.or_eq_true, beq_iff_eq, List.contains_iff_exists_mem_beq, exists_eq_right',
    List.any_eq_true, includes_iff, and_assoc, or_assoc]

/-! ## Lemmas on the state -/

theorem renderFormulas_globals (s : State) :
    (renderFormulas s).allFormulas = s.allFormulas ∧
    (renderFormulas s).filteredFormulas = s.filteredFormulas ∧
    (renderFormulas s).displayedCount = s.displayedCount ∧
    (renderFormulas s).showingAll = s.showingAll ∧
    (renderFormulas s).currentFilters = s.currentFilters ∧
    (renderFormulas s).dom.resultsCount = s.dom.resultsCount := by
  unfold renderFormulas
  split <;> simp

/-- On an array `applyFilters` completes normally: the globals and the page it
leaves, `renderFormulas` having run on the new filtered list. -/
theorem applyFilters_array (toLowerCase : JsString → JsString) (s : State)
    (records : List Formula) (h : s.allFormulas = .array records) :
    ∃ s', applyFilters toLowerCase s = .normal s' ∧
      s'.filteredFormulas = records.filter (filterCallback toLowerCase s.currentFilters) ∧
      s'.allFormulas = .array records ∧
      s'.displayedCount = s.displayedCount ∧
      s'.showingAll = s.showingAll ∧
      s'.currentFilters = s.currentFilters ∧
      s'.dom.resultsCount = resultsCountText s.displayedCount
        (records.filter (filterCallback toLowerCase s.currentFilters)).length
        (some records.length) ∧
      s'.dom.formulasContainer =
        (renderFormulas { s with
          filteredFormulas := records.filter (filterCallback toLowerCase s.currentFilters)
          }).dom.formulasContainer ∧
      s'.dom.noResultsHidden =
        (renderFormulas { s with
          filteredFormulas := records.filter (filterCallback toLowerCase s.currentFilters)
          }).dom.noResultsHidden ∧
      s'.dom.showMoreContainerHidden =
        (renderFormulas { s with
          filteredFormulas := records.filter (filterCallback toLowerCase s.currentFilters)
          }).dom.showMoreContainerHidden := by
  obtain ⟨all, filtered, count, showing, filters, dom⟩ := s
  simp only at h
  subst h
  have hg := renderFormulas_globals
    { allFormulas := .array records
      filteredFormulas := records.filter (filterCallback toLowerCase filters)
      displayedCount := count, showingAll := showing, currentFilters := filters, dom := dom }
  simp only at hg
  obtain ⟨h1, h2, h3, h4, h5, -⟩ := hg
  simp only [applyFilters, updateResultsCount, h1, h2, h3, h4, h5, lengthOf]
  exact ⟨_, rfl, rfl, rfl, rfl, rfl, rfl, rfl, rfl, rfl, rfl⟩

/-- On the scenario dataset a function that lowers ASCII text as `toLowerCase`
does gives the callback the value `asciiLowerCase` gives it. -/
theorem filterCallback_scenario {toLowerCase : JsString → JsString}
    (hL : LowersAscii toLowerCase) (f : Filters) :
    scenarioDataset.filter (filterCallback toLowerCase f) =
      scenarioDataset.filter (filterCallback asciiLowerCase f) := by
  have h1 := hL "Newton's Second Law".toList (by decide)
  have h2 := hL "Mechanics".toList (by decide)
  have h3 := hL "force".toList (by decide)
  have h4 := hL "mass".toList (by decide)
  have h5 := hL "F=ma".toList (by decide)
  have h6 := hL "Quadratic Formula".toList (by decide)
  have h7 := hL "Algebra".toList (by decide)
  have h8 := hL "roots".toList (by decide)
  have h9 := hL "solves ax^2+bx+c=0".toList (by decide)
  have hn : filterCallback toLowerCase f newton = filterCallback asciiLowerCase f newton := by
    simp only [filterCallback, matchesSearch, newton, List.any_cons, List.any_nil, h1, h2, h3,
      h4, h5]
  have hq : filterCallback toLowerCase f quadratic
      = filterCallback asciiLowerCase f quadratic := by
    simp only [filterCallback, matchesSearch, quadratic, List.any_cons, List.any_nil, h6, h7,
      h8, h9]
  simp only [scenarioDataset, List.filter_cons, List.filter_nil, hn, hq]

/-- What `renderFormulas` writes to the page. -/
theorem renderFormulas_dom (s : State) :
    (renderFormulas s).dom.formulasContainer = cardsHtml (formulasToShow s) ∧
    (renderFormulas s).dom.noResultsHidden = !decide (s.filteredFormulas = []) ∧
    (renderFormulas s).dom.showMoreContainerHidden
      = decide (s.filteredFormulas.length ≤ s.displayedCount) := by
  unfold renderFormulas
  split
  · rename_i h
    have hnil : s.filteredFormulas = [] := List.length_eq_zero.1 h
    simp [hnil, formulasToShow, cardsHtml, cardsFrom, join]
  · rename_i h
    have hne : s.filteredFormulas ≠ [] := fun hnil => h (by rw [hnil]; rfl)
    simp [hne]

theorem take_min_length {α : Type} (l : List α) (d : Nat) :
    l.take (min d l.length) = l.take d := by
  rcases Nat.le_total d l.length with h | h
  · rw [Nat.min_eq_left h]
  · rw [Nat.min_eq_right h, List.take_of_length_le (Nat.le_refl _), List.take_of_length_le h]

/-- With no constraint the callback keeps every record. -/
theorem filter_no_constraint (toLowerCase : JsString → JsString) (records : List Formula) :
    records.filter (filterCallback toLowerCase ⟨"all".toList, "all".toList, []⟩) = records := by
  rw [List.filter_eq_self]
  intro record _
  simp [filterCallback, matchesSubject, matchesLevel, matchesSearch]

/-- Whether it throws or not, `applyFilters` leaves the view state and the
filters as they are. -/
theorem applyFilters_view (toLowerCase : JsString → JsString) (s : State) :
    (applyFilters toLowerCase s).state.showingAll = s.showingAll ∧
    (applyFilters toLowerCase s).state.displayedCount = s.displayedCount ∧
    (applyFilters toLowerCase s).state.currentFilters = s.currentFilters := by
  cases h : s.allFormulas with
  | array records =>
    obtain ⟨s', h1, -, -, h4, h5, h6, -⟩ := applyFilters_array toLowerCase s records h
    rw [h1]
    exact ⟨h5, h4, h6⟩
  | undefined => simp [applyFilters, h, Completion.state]
  | null => simp [applyFilters, h, Completion.state]
  | other n => simp [applyFilters, h, Completion.state]

/-- The state `applyFilters` leaves when it starts from a reset view state. -/
theorem applyFilters_reset (toLowerCase : JsString → JsString) (s : State)
    (records : List Formula) (h : s.allFormulas = .array records)
    (hs : s.showingAll = false) (hd : s.displayedCount = 6) :
    ∃ s', applyFilters toLowerCase s = .normal s' ∧
      s'.filteredFormulas = records.filter (filterCallback toLowerCase s.currentFilters) ∧
      s'.dom.formulasContainer = cardsHtml (s'.filteredFormulas.take 6) ∧
      (s'.dom.showMoreContainerHidden = false ↔ 6 < s'.filteredFormulas.length) ∧
      s'.dom.resultsCount
        = resultsCountText 6 s'.filteredFormulas.length (some records.length) := by
  obtain ⟨s', h1, h2, -, -, -, -, h7, h8, -, h10⟩ := applyFilters_array toLowerCase s records h
  refine ⟨s', h1, h2, ?_, ?_, ?_⟩
  · rw [h8, (renderFormulas_dom _).1, h2]
    simp [formulasToShow, hs, hd]
  · rw [h10, (renderFormulas_dom _).2.2, h2]
    simp [hd]
  · rw [h7, h2, hd]

/-- After a load that leaves `allFormulas` an empty array, `applyFilters`
empties the container and shows the no-results state. -/
theorem applyFilters_empty (toLowerCase : JsString → JsString) (s : State)
    (h : s.allFormulas = .array []) :
    ∃ s', applyFilters toLowerCase s = .normal s' ∧
      s'.allFormulas = .array [] ∧
      s'.dom.formulasContainer = [] ∧
      s'.dom.noResultsHidden = false := by
  obtain ⟨s', h1, -, h3, -, -, -, -, h8, h9, -⟩ := applyFilters_array toLowerCase s [] h
  refine ⟨s', h1, h3, ?_, ?_⟩
  · rw [h8, (renderFormulas_dom _).1]
    simp [formulasToShow, cardsHtml, cardsFrom, join]
  · rw [h9, (renderFormulas_dom _).2.1]
    simp

theorem errorHtml_ne_nil (message : JsString) : errorHtml message ≠ [] := by
  simp [errorHtml, join]

/-! ## Lemmas on the reader `shownTitles` -/

theorem clash_append (m t r : JsString) (h : clash m t = true) : clash m (t ++ r) = true := by
  induction m generalizing t with
  | nil => simp [clash] at h
  | cons a as ih =>
    cases t with
    | nil => simp [clash] at h
    | cons c cs =>
      simp only [clash, Bool.or_eq_true, List.cons_append] at h ⊢
      rcases h with h | h
      · exact Or.inl h
      · exact Or.inr (ih cs h)

theorem clash_isPrefixOf (m t : JsString) (h : clash m t = true) : m.isPrefixOf t = false := by
  induction m generalizing t with
  | nil => simp [clash] at h
  | cons a as ih =>
    cases t with
    | nil => rfl
    | cons c cs =>
      simp only [clash, Bool.or_eq_true, bne_iff_ne, ne_eq] at h
      simp only [List.isPrefixOf, Bool.and_eq_false_iff, beq_eq_false_iff_ne, ne_eq]
      rcases h with h | h
      · exact Or.inl h
      · exact Or.inr (ih cs h)

theorem shownTitles_cons (c : Char) (cs : JsString) :
    shownTitles (c :: cs) =
      if titleOpen.isPrefixOf (c :: cs) then
        ((c :: cs).drop titleOpen.length).takeWhile (fun x => x != '<') :: shownTitles cs
      else shownTitles cs := rfl

/-- The reader passes over an inert block. -/
theorem shownTitles_skip (block rest : JsString) (h : inert block = true) :
    shownTitles (block ++ rest) = shownTitles rest := by
  induction block with
  | nil => rfl
  | cons c cs ih =>
    simp only [inert, Bool.and_eq_true] at h
    have hp : titleOpen.isPrefixOf (c :: (cs ++ rest)) = false :=
      clash_isPrefixOf _ _ (clash_append _ (c :: cs) rest h.1)
    show shownTitles (c :: (cs ++ rest)) = shownTitles rest
    rw [shownTitles_cons, hp]
    exact ih h.2

theorem inert_append (a b : JsString) (ha : inert a = true) (hb : inert b = true) :
    inert (a ++ b) = true := by
  induction a with
  | nil => exact hb
  | cons c cs ih =>
    simp only [inert, Bool.and_eq_true] at ha
    simp only [List.cons_append, inert, Bool.and_eq_true]
    exact ⟨clash_append _ (c :: cs) b ha.1, ih ha.2⟩

theorem inert_of_no_lt (block : JsString) (h : ∀ c ∈ block, c ≠ '<') : inert block = true := by
  induction block with
  | nil => rfl
  | cons c cs ih =>
    have hc : c ≠ '<' := h c (List.mem_cons_self _ _)
    have hcl : clash titleOpen (c :: cs) = true := by
      have : titleOpen = '<' :: "h3 class=\"card-title\">".toList := rfl
      rw [this]
      simp only [clash, Bool.or_eq_true, bne_iff_ne, ne_eq]
      exact Or.inl (fun e => hc e.symm)
    simp only [inert, Bool.and_eq_true]
    exact ⟨hcl, ih (fun x hx => h x (List.mem_cons_of_mem _ hx))⟩

theorem inert_escapeHtml (text : JsString) : inert (escapeHtml text) = true :=
  inert_of_no_lt _ (fun c hc => (escapeHtml_clean text c hc).1)

theorem digitChar_ne_lt (d : Nat) (h : d < 10) : Nat.digitChar d ≠ '<' := by
  interval_cases d <;> decide

theorem toDigitsCore_no_lt (fuel n : Nat) (ds : List Char) (h : ∀ c ∈ ds, c ≠ '<') :
    ∀ c ∈ Nat.toDigitsCore 10 fuel n ds, c ≠ '<' := by
  induction fuel generalizing n ds with
  | zero => simpa [Nat.toDigitsCore] using h
  | succ fuel ih =>
    have hds : ∀ c ∈ Nat.digitChar (n % 10) :: ds, c ≠ '<' := by
      intro c hc
      rcases List.mem_cons.1 hc with hc | hc
      · rw [hc]; exact digitChar_ne_lt _ (Nat.mod_lt _ (by decide))
      · exact h c hc
    simp only [Nat.toDigitsCore]
    split_ifs
    · exact hds
    · exact ih _ _ hds

theorem inert_numberToString (n : Nat) : inert (numberToString n) = true :=
  inert_of_no_lt _ (toDigitsCore_no_lt _ _ [] (fun _ h => absurd h (List.not_mem_nil _)))

theorem inert_join (pieces : List JsString) (h : ∀ p ∈ pieces, inert p = true) :
    inert (join pieces) = true := by
  induction pieces with
  | nil => rfl
  | cons p ps ih =>
    exact inert_append _ _ (h p (List.mem_cons_self _ _))
      (ih (fun q hq => h q (List.mem_cons_of_mem _ hq)))

theorem inert_joinWith (separator : JsString) (pieces : List JsString)
    (hs : inert separator = true) (h : ∀ p ∈ pieces, inert p = true) :
    inert (joinWith separator pieces) = true := by
  induction pieces with
  | nil => rfl
  | cons p ps ih =>
    cases ps with
    | nil => exact h p (List.mem_cons_self _ _)
    | cons q qs =>
      simp only [joinWith]
      exact inert_append _ _ (inert_append _ _ (h p (List.mem_cons_self _ _)) hs)
        (ih (fun r hr => h r (List.mem_cons_of_mem _ hr)))

theorem inert_levelTag (level : JsString) : inert (levelTag level) = true := by
  unfold levelTag
  apply inert_join
  intro p hp
  simp only [List.mem_cons, List.mem_singleton, List.not_mem_nil, or_false] at hp
  rcases hp with hp | hp | hp <;> subst hp
  · decide
  · exact inert_escapeHtml _
  · decide

theorem inert_levels (levels : List JsString) : inert (join (levels.map levelTag)) = true := by
  apply inert_join
  intro p hp
  obtain ⟨level, -, rfl⟩ := List.mem_map.1 hp
  exact inert_levelTag level

theorem inert_keywords (keywords : List JsString) :
    inert (joinWith ", ".toList (keywords.map escapeHtml)) = true := by
  apply inert_joinWith _ _ (by decide)
  intro p hp
  obtain ⟨kw, -, rfl⟩ := List.mem_map.1 hp
  exact inert_escapeHtml kw

set_option maxRecDepth 8000 in
theorem inert_imageHtml (formula : Formula) : inert (imageHtml formula) = true := by
  unfold imageHtml
  split
  · rfl
  · split
    · rfl
    · simp only [join, List.append_nil]
      repeat' (first
        | exact inert_escapeHtml _
        | apply inert_append
        | decide)

set_option maxRecDepth 8000 in
theorem inert_pdfHtml (formula : Formula) : inert (pdfHtml formula) = true := by
  unfold pdfHtml
  split
  · rfl
  · split
    · rfl
    · simp only [join, List.append_nil]
      repeat' (first
        | exact inert_escapeHtml _
        | apply inert_append
        | decide)

/-- At the line of a card that holds the title the reader reads the title. -/
theorem shownTitles_titleLine (title rest : JsString) (h : ∀ c ∈ title, c ≠ '<') :
    shownTitles ("                <h3 class=\"card-title\">".toList
        ++ (title ++ ("</h3>\n".toList ++ rest)))
      = title :: shownTitles (title ++ ("</h3>\n".toList ++ rest)) := by
  have hline : "                <h3 class=\"card-title\">".toList
      = "                ".toList ++ ('<' :: "h3 class=\"card-title\">".toList) := by decide
  have hopen : titleOpen = '<' :: "h3 class=\"card-title\">".toList := rfl
  have hclose : "</h3>\n".toList = '<' :: "/h3>\n".toList := by decide
  rw [hline, List.append_assoc, shownTitles_skip _ _ (by decide), List.cons_append,
    shownTitles_cons]
  have hp : titleOpen.isPrefixOf
      ('<' :: ("h3 class=\"card-title\">".toList ++ (title ++ ("</h3>\n".toList ++ rest))))
      = true := by
    rw [List.isPrefixOf_iff_prefix, hopen, ← List.cons_append]
    exact List.prefix_append _ _
  rw [hp, if_pos rfl]
  have hdrop : List.drop titleOpen.length
      ('<' :: ("h3 class=\"card-title\">".toList ++ (title ++ ("</h3>\n".toList ++ rest))))
      = title ++ ("</h3>\n".toList ++ rest) := by
    rw [hopen, ← List.cons_append]
    exact List.drop_left _ _
  have htake : List.takeWhile (fun x => x != '<') (title ++ ("</h3>\n".toList ++ rest))
      = title := by
    rw [hclose, List.cons_append, List.takeWhile_append_of_pos (by simpa using h)]
    simp [List.takeWhile_cons]
  rw [hdrop, htake, shownTitles_skip _ _ (by decide)]

set_option maxRecDepth 8000 in
/-- In the markup of one card the reader finds one title, the escaped title of
the record. -/
theorem shownTitles_card (formula : Formula) (index : Nat) (rest : JsString) :
    shownTitles (card formula index ++ rest) = escapeHtml formula.title :: shownTitles rest := by
  simp only [card, join, List.append_nil, List.append_assoc]
  repeat (first
    | rw [shownTitles_skip _ _ (inert_numberToString _)]
    | rw [shownTitles_skip _ _ (by decide)])
  rw [shownTitles_titleLine _ _ (fun c hc => (escapeHtml_clean _ c hc).1)]
  congr 1
  repeat (first
    | rw [shownTitles_skip _ _ (inert_numberToString _)]
    | rw [shownTitles_skip _ _ (inert_escapeHtml _)]
    | rw [shownTitles_skip _ _ (inert_levels _)]
    | rw [shownTitles_skip _ _ (inert_imageHtml _)]
    | rw [shownTitles_skip _ _ (inert_pdfHtml _)]
    | rw [shownTitles_skip _ _ (inert_keywords _)]
    | rw [shownTitles_skip _ _ (by decide)])

/-- In the markup of a list of cards the reader finds the escaped titles of the
records, in the order of the list. -/
theorem shownTitles_cardsFrom (index : Nat) (shown : List Formula) :
    shownTitles (join (cardsFrom index shown))
      = shown.map (fun record => escapeHtml record.title) := by
  induction shown generalizing index with
  | nil => rfl
  | cons formula rest ih =>
    simp only [cardsFrom, join, List.map_cons]
    rw [shownTitles_card, ih]

theorem shownTitles_cardsHtml (shown : List Formula) :
    shownTitles (cardsHtml shown) = shown.map (fun record => escapeHtml record.title) :=
  shownTitles_cardsFrom 0 shown

/-! ## The claims -/

/-- C1: for every list of records and every filter state `applyFilters` leaves
in `filteredFormulas` exactly the records of `allFormulas`, in their order,
that the specified rule includes (subject passes, level passes and search
passes); on the two-record scenario dataset, subject `math` gives only the
quadratic formula, search `force` only Newton's second law, and level
`college` only the quadratic formula. -/
theorem applyFilters_keeps_exactly_the_included (toLowerCase : JsString → JsString) :
    (∀ (records : List Formula) (f : Filters) (s : State),
      ∃ keep : Formula → Bool,
        (∀ record, keep record = true ↔ SpecIncluded toLowerCase f record) ∧
        ∃ s', applyFilters toLowerCase
                { s with allFormulas := .array records, currentFilters := f } = .normal s' ∧
              s'.filteredFormulas = records.filter keep) ∧
    (LowersAscii toLowerCase → ∀ s : State,
      (∃ s', applyFilters toLowerCase
              { s with allFormulas := .array scenarioDataset,
                       currentFilters := ⟨"math".toList, "all".toList, []⟩ } = .normal s' ∧
            s'.filteredFormulas = [quadratic]) ∧
      (∃ s', applyFilters toLowerCase
              { s with allFormulas := .array scenarioDataset,
                       currentFilters := ⟨"all".toList, "all".toList, "force".toList⟩ }
              = .normal s' ∧
            s'.filteredFormulas = [newton]) ∧
      (∃ s', applyFilters toLowerCase
              { s with allFormulas := .array scenarioDataset,
                       currentFilters := ⟨"all".toList, "college".toList, []⟩ } = .normal s' ∧
            s'.filteredFormulas = [quadratic])) := by
  refine ⟨?_, ?_⟩
  · intro records f s
    refine ⟨filterCallback toLowerCase f, filterCallback_iff toLowerCase f, ?_⟩
    obtain ⟨s', h1, h2, -⟩ := applyFilters_array toLowerCase
      { s with allFormulas := .array records, currentFilters := f } records rfl
    exact ⟨s', h1, h2⟩
  · intro hL s
    refine ⟨?_, ?_, ?_⟩
    · obtain ⟨s', h1, h2, -⟩ := applyFilters_array toLowerCase
        { s with allFormulas := .array scenarioDataset,
                 currentFilters := ⟨"math".toList, "all".toList, []⟩ } scenarioDataset rfl
      refine ⟨s', h1, ?_⟩
      rw [h2, filterCallback_scenario hL]
      simp only
      decide
    · obtain ⟨s', h1, h2, -⟩ := applyFilters_array toLowerCase
        { s with allFormulas := .array scenarioDataset,
                 currentFilters := ⟨"all".toList, "all".toList, "force".toList⟩ }
        scenarioDataset rfl
      refine ⟨s', h1, ?_⟩
      rw [h2, filterCallback_scenario hL]
      simp only
      decide
    · obtain ⟨s', h1, h2, -⟩ := applyFilters_array toLowerCase
        { s with allFormulas := .array scenarioDataset,
                 currentFilters := ⟨"all".toList, "college".toList, []⟩ } scenarioDataset rfl
      refine ⟨s', h1, ?_⟩
      rw [h2, filterCallback_scenario hL]
      simp only
      decide

/-- Witness of C1 on the scenario dataset, with `asciiLowerCase`. -/
theorem applyFilters_keeps_exactly_the_included_witness :
    LowersAscii asciiLowerCase ∧
    ∃ s', applyFilters asciiLowerCase
            { initialState blankPage with
              allFormulas := .array scenarioDataset,
              currentFilters := ⟨"all".toList, "all".toList, "force".toList⟩ } = .normal s' ∧
          s'.filteredFormulas = [newton] :=
  ⟨fun _ _ => rfl,
   ((applyFilters_keeps_exactly_the_included asciiLowerCase).2 (fun _ _ => rfl)
      (initialState blankPage)).2.1⟩

/-- C2: the output of `escapeHtml` holds none of `<`, `>`, `"`, `'`, and every
`&` in it is the first character of one of the five entities; so a title
holding `<script>` is written without `<` or `>` (the bare title becomes
`&lt;script&gt;`), and a card writes the title through `escapeHtml`. -/
theorem escapeHtml_output_is_inert :
    (∀ text : JsString, ∀ c ∈ escapeHtml text, c ≠ '<' ∧ c ≠ '>' ∧ c ≠ '"' ∧ c ≠ '\'') ∧
    (∀ text pre post : JsString, escapeHtml text = pre ++ '&' :: post →
      ∃ e ∈ entities, e <+: '&' :: post) ∧
    (∀ title : JsString, "<script>".toList <:+: title →
      '<' ∉ escapeHtml title ∧ '>' ∉ escapeHtml title) ∧
    escapeHtml "<script>".toList = "&lt;script&gt;".toList ∧
    (∀ (formula : Formula) (index : Nat),
      "                <h3 class=\"card-title\">".toList ++ escapeHtml formula.title
          ++ "</h3>\n".toList <:+: card formula index) := by
  refine ⟨escapeHtml_clean, escapeHtml_amp, ?_, by decide, ?_⟩
  · intro title _
    exact ⟨fun h => (escapeHtml_clean title _ h).1 rfl,
           fun h => (escapeHtml_clean title _ h).2.1 rfl⟩
  · intro formula index
    simp only [card, join]
    refine List.IsInfix.trans ?_ (List.suffix_append _ _).isInfix
    refine List.IsInfix.trans ?_ (List.suffix_append _ _).isInfix
    refine List.IsInfix.trans ?_ (List.suffix_append _ _).isInfix
    refine List.IsInfix.trans ?_ (List.suffix_append _ _).isInfix
    refine List.IsInfix.trans ?_ (List.suffix_append _ _).isInfix
    exact List.IsPrefix.isInfix ⟨_, by rw [List.append_assoc, List.append_assoc]⟩

/-- Witness of C2: a character of an output, the `&` written for the `&` of
`a&b`, and a title holding `<script>`. -/
theorem escapeHtml_output_is_inert_witness :
    ('l' ∈ escapeHtml "<".toList ∧ 'l' ≠ '<' ∧ 'l' ≠ '>' ∧ 'l' ≠ '"' ∧ 'l' ≠ '\'') ∧
    (escapeHtml "a&b".toList = "a".toList ++ '&' :: "amp;b".toList ∧
      ∃ e ∈ entities, e <+: '&' :: "amp;b".toList) ∧
    ("<script>".toList <:+: "x<script>alert(1)</script>".toList ∧
      '<' ∉ escapeHtml "x<script>alert(1)</script>".toList ∧
      '>' ∉ escapeHtml "x<script>alert(1)</script>".toList) :=
  ⟨⟨by decide, escapeHtml_output_is_inert.1 "<".toList 'l' (by decide)⟩,
   ⟨by decide, escapeHtml_output_is_inert.2.1 "a&b".toList "a".toList "amp;b".toList (by decide)⟩,
   ⟨⟨"x".toList, "alert(1)</script>".toList, by decide⟩,
    escapeHtml_output_is_inert.2.2.1 "x<script>alert(1)</script>".toList
      ⟨"x".toList, "alert(1)</script>".toList, by decide⟩⟩⟩

/-- C8: narrowing the search term never adds a record: when `s1` is a substring
of `s2`, every record the callback keeps with search `s2` it keeps with search
`s1`, and the list `applyFilters` leaves with `s2` is a sublist of the one it
leaves with `s1`. -/
theorem applyFilters_search_monotone (toLowerCase : JsString → JsString)
    (records : List Formula) (subject level s1 s2 : JsString) (s : State)
    (h : s1 <:+: s2) :
    (∀ record, filterCallback toLowerCase ⟨subject, level, s2⟩ record = true →
      filterCallback toLowerCase ⟨subject, level, s1⟩ record = true) ∧
    ∃ a b,
      applyFilters toLowerCase
        { s with allFormulas := .array records, currentFilters := ⟨subject, level, s1⟩ }
        = .normal a ∧
      applyFilters toLowerCase
        { s with allFormulas := .array records, currentFilters := ⟨subject, level, s2⟩ }
        = .normal b ∧
      List.Sublist b.filteredFormulas a.filteredFormulas := by
  have hcb : ∀ record, filterCallback toLowerCase ⟨subject, level, s2⟩ record = true →
      filterCallback toLowerCase ⟨subject, level, s1⟩ record = true := by
    intro record hr
    rw [filterCallback_iff] at hr ⊢
    refine ⟨hr.1, hr.2.1, ?_⟩
    rcases hr.2.2 with h2 | h2 | h2 | ⟨kw, hkw, h2⟩ | h2
    · left
      have h2' : s2 = [] := h2
      rw [h2'] at h
      exact List.infix_nil.1 h
    · exact Or.inr (Or.inl (h.trans h2))
    · exact Or.inr (Or.inr (Or.inl (h.trans h2)))
    · exact Or.inr (Or.inr (Or.inr (Or.inl ⟨kw, hkw, h.trans h2⟩)))
    · exact Or.inr (Or.inr (Or.inr (Or.inr (h.trans h2))))
  refine ⟨hcb, ?_⟩
  obtain ⟨a, ha, hfa, -⟩ := applyFilters_array toLowerCase
    { s with allFormulas := .array records, currentFilters := ⟨subject, level, s1⟩ } records rfl
  obtain ⟨b, hb, hfb, -⟩ := applyFilters_array toLowerCase
    { s with allFormulas := .array records, currentFilters := ⟨subject, level, s2⟩ } records rfl
  refine ⟨a, b, ha, hb, ?_⟩
  rw [hfa, hfb]
  exact List.monotone_filter_right records hcb

/-- Witness of C8: narrowing `for` to `force` on the scenario dataset. -/
theorem applyFilters_search_monotone_witness :
    "for".toList <:+: "force".toList ∧
    (filterCallback asciiLowerCase ⟨"all".toList, "all".toList, "force".toList⟩ newton = true ∧
      filterCallback asciiLowerCase ⟨"all".toList, "all".toList, "for".toList⟩ newton = true) ∧
    ∃ a b,
      applyFilters asciiLowerCase
        { initialState blankPage with
          allFormulas := .array scenarioDataset,
          currentFilters := ⟨"all".toList, "all".toList, "for".toList⟩ } = .normal a ∧
      applyFilters asciiLowerCase
        { initialState blankPage with
          allFormulas := .array scenarioDataset,
          currentFilters := ⟨"all".toList, "all".toList, "force".toList⟩ } = .normal b ∧
      List.Sublist b.filteredFormulas a.filteredFormulas :=
  ⟨⟨[], "ce".toList, by decide⟩,
   ⟨by decide,
    (applyFilters_search_monotone asciiLowerCase scenarioDataset "all".toList "all".toList
      "for".toList "force".toList (initialState blankPage) ⟨[], "ce".toList, by decide⟩).1
      newton (by decide)⟩,
   (applyFilters_search_monotone asciiLowerCase scenarioDataset "all".toList "all".toList
      "for".toList "force".toList (initialState blankPage) ⟨[], "ce".toList, by decide⟩).2⟩

/-- C10: with the filter state `all`, `all`, empty search (the state the script
starts in) `applyFilters` leaves the full list in `filteredFormulas`: the same
records in the same order. -/
theorem applyFilters_no_constraint (toLowerCase : JsString → JsString)
    (records : List Formula) (s : State) :
    (initialState s.dom).currentFilters = ⟨"all".toList, "all".toList, []⟩ ∧
    ∃ s', applyFilters toLowerCase
            { s with allFormulas := .array records,
                     currentFilters := ⟨"all".toList, "all".toList, []⟩ } = .normal s' ∧
          s'.filteredFormulas = records := by
  refine ⟨rfl, ?_⟩
  obtain ⟨s', h1, h2, -⟩ := applyFilters_array toLowerCase
    { s with allFormulas := .array records,
             currentFilters := ⟨"all".toList, "all".toList, []⟩ } records rfl
  refine ⟨s', h1, ?_⟩
  rw [h2]
  exact filter_no_constraint toLowerCase records

/-- C3: the records `renderFormulas` shows are a prefix of the filtered list:
the whole list when `showingAll` is true, its first `min displayedCount n`
records when it is false; so never more than `n`, and never more than
`displayedCount` unless `showingAll`.  With `displayedCount = 6` and ten
filtered records the first six are shown, and after `toggleShowMore` all ten.
What is shown is read off the page: the titles `shownTitles` finds in the
container are the escaped titles of those records, in their order. -/
theorem renderFormulas_shows_first_records (s : State) :
    (renderFormulas s).dom.formulasContainer = cardsHtml (formulasToShow s) ∧
    shownTitles (renderFormulas s).dom.formulasContainer
      = (formulasToShow s).map (fun record => escapeHtml record.title) ∧
    formulasToShow s <+: s.filteredFormulas ∧
    (s.showingAll = true →
      formulasToShow s = s.filteredFormulas ∧
      shownTitles (renderFormulas s).dom.formulasContainer
        = s.filteredFormulas.map (fun record => escapeHtml record.title)) ∧
    (s.showingAll = false →
      formulasToShow s
        = s.filteredFormulas.take (min s.displayedCount s.filteredFormulas.length) ∧
      shownTitles (renderFormulas s).dom.formulasContainer
        = (s.filteredFormulas.take (min s.displayedCount s.filteredFormulas.length)).map
            (fun record => escapeHtml record.title)) ∧
    ((formulasToShow s).length ≤ s.filteredFormulas.length ∧
      (shownTitles (renderFormulas s).dom.formulasContainer).length
        ≤ s.filteredFormulas.length) ∧
    (s.showingAll = false →
      (formulasToShow s).length ≤ s.displayedCount ∧
      (shownTitles (renderFormulas s).dom.formulasContainer).length ≤ s.displayedCount) ∧
    (s.displayedCount = 6 → s.filteredFormulas.length = 10 → s.showingAll = false →
      (renderFormulas s).dom.formulasContainer = cardsHtml (s.filteredFormulas.take 6) ∧
      (s.filteredFormulas.take 6).length = 6 ∧
      shownTitles (renderFormulas s).dom.formulasContainer
        = (s.filteredFormulas.take 6).map (fun record => escapeHtml record.title) ∧
      (shownTitles (renderFormulas s).dom.formulasContainer).length = 6 ∧
      (toggleShowMore s).showingAll = true ∧
      (toggleShowMore s).dom.formulasContainer = cardsHtml s.filteredFormulas ∧
      shownTitles (toggleShowMore s).dom.formulasContainer
        = s.filteredFormulas.map (fun record => escapeHtml record.title) ∧
      (shownTitles (toggleShowMore s).dom.formulasContainer).length = 10) := by
  have hpre : formulasToShow s <+: s.filteredFormulas := by
    unfold formulasToShow
    split
    · exact List.prefix_refl _
    · exact List.take_prefix _ _
  have hc : (renderFormulas s).dom.formulasContainer = cardsHtml (formulasToShow s) :=
    (renderFormulas_dom s).1
  have ht : shownTitles (renderFormulas s).dom.formulasContainer
      = (formulasToShow s).map (fun record => escapeHtml record.title) := by
    rw [hc, shownTitles_cardsHtml]
  have hall : s.showingAll = true → formulasToShow s = s.filteredFormulas := by
    intro h
    simp [formulasToShow, h]
  have hsome : s.showingAll = false → formulasToShow s
      = s.filteredFormulas.take (min s.displayedCount s.filteredFormulas.length) := by
    intro h
    simp only [formulasToShow, h, take_min_length]
    rfl
  have hle : s.showingAll = false → (formulasToShow s).length ≤ s.displayedCount := by
    intro h
    simp only [formulasToShow, h, Bool.false_eq_true, if_false, List.length_take]
    exact Nat.min_le_left _ _
  refine ⟨hc, ht, hpre, ?_, ?_, ?_, ?_, ?_⟩
  · intro h
    exact ⟨hall h, by rw [ht, hall h]⟩
  · intro h
    exact ⟨hsome h, by rw [ht, hsome h]⟩
  · refine ⟨hpre.length_le, ?_⟩
    rw [ht, List.length_map]
    exact hpre.length_le
  · intro h
    refine ⟨hle h, ?_⟩
    rw [ht, List.length_map]
    exact hle h
  · intro hd hn hs
    have h6 : formulasToShow s = s.filteredFormulas.take 6 := by
      simp [formulasToShow, hs, hd]
    have hlen : (s.filteredFormulas.take 6).length = 6 := by
      simp [List.length_take, hn]
    have hflag := (renderFormulas_globals { s with showingAll := !s.showingAll }).2.2.2.1
    have hcard := (renderFormulas_dom { s with showingAll := !s.showingAll }).1
    simp only [hs, Bool.not_false] at hflag hcard
    have htoggle : (toggleShowMore s).dom.formulasContainer = cardsHtml s.filteredFormulas := by
      simp only [toggleShowMore, hs, Bool.not_false, hflag, if_true, hcard]
      simp [formulasToShow]
    refine ⟨?_, hlen, ?_, ?_, ?_, htoggle, ?_, ?_⟩
    · rw [hc, h6]
    · rw [ht, h6]
    · rw [ht, h6, List.length_map, hlen]
    · simp only [toggleShowMore, hs, Bool.not_false, hflag, if_true]
    · rw [htoggle, shownTitles_cardsHtml]
    · rw [htoggle, shownTitles_cardsHtml, List.length_map, hn]

set_option maxRecDepth 8000 in
/-- Witness of C3: the pagination scenario on a state whose ten filtered
records carry ten different titles, collapsed and expanded; the titles read off
the page are the first six, then all ten, in order. -/
theorem renderFormulas_shows_first_records_witness :
    (tenDistinct.showingAll = false ∧ tenDistinct.displayedCount = 6 ∧
      tenDistinct.filteredFormulas.length = 10) ∧
    (formulasToShow { tenDistinct with showingAll := true } = tenDistinct.filteredFormulas ∧
      shownTitles (renderFormulas { tenDistinct with showingAll := true }).dom.formulasContainer
        = ["Formula 0".toList, "Formula 1".toList, "Formula 2".toList, "Formula 3".toList,
           "Formula 4".toList, "Formula 5".toList, "Formula 6".toList, "Formula 7".toList,
           "Formula 8".toList, "Formula 9".toList]) ∧
    (formulasToShow tenDistinct
        = tenDistinct.filteredFormulas.take
            (min tenDistinct.displayedCount tenDistinct.filteredFormulas.length) ∧
      shownTitles (renderFormulas tenDistinct).dom.formulasContainer
        = ["Formula 0".toList, "Formula 1".toList, "Formula 2".toList, "Formula 3".toList,
           "Formula 4".toList, "Formula 5".toList]) ∧
    ((formulasToShow tenDistinct).length ≤ tenDistinct.displayedCount ∧
      (shownTitles (renderFormulas tenDistinct).dom.formulasContainer).length
        ≤ tenDistinct.displayedCount) ∧
    ((renderFormulas tenDistinct).dom.formulasContainer
        = cardsHtml (tenDistinct.filteredFormulas.take 6) ∧
      (shownTitles (renderFormulas tenDistinct).dom.formulasContainer).length = 6 ∧
      (toggleShowMore tenDistinct).showingAll = true ∧
      (toggleShowMore tenDistinct).dom.formulasContainer
        = cardsHtml tenDistinct.filteredFormulas ∧
      shownTitles (toggleShowMore tenDistinct).dom.formulasContainer
        = ["Formula 0".toList, "Formula 1".toList, "Formula 2".toList, "Formula 3".toList,
           "Formula 4".toList, "Formula 5".toList, "Formula 6".toList, "Formula 7".toList,
           "Formula 8".toList, "Formula 9".toList] ∧
      (shownTitles (toggleShowMore tenDistinct).dom.formulasContainer).length = 10) :=
  ⟨⟨rfl, rfl, rfl⟩,
   ⟨((renderFormulas_shows_first_records { tenDistinct with showingAll := true }).2.2.2.1
      rfl).1,
    ((renderFormulas_shows_first_records { tenDistinct with showingAll := true }).2.2.2.1
      rfl).2.trans (by decide)⟩,
   ⟨((renderFormulas_shows_first_records tenDistinct).2.2.2.2.1 rfl).1,
    ((renderFormulas_shows_first_records tenDistinct).2.2.2.2.1 rfl).2.trans (by decide)⟩,
   (renderFormulas_shows_first_records tenDistinct).2.2.2.2.2.2.1 rfl,
   ⟨((renderFormulas_shows_first_records tenDistinct).2.2.2.2.2.2.2 rfl rfl rfl).1,
    ((renderFormulas_shows_first_records tenDistinct).2.2.2.2.2.2.2 rfl rfl rfl).2.2.2.1,
    ((renderFormulas_shows_first_records tenDistinct).2.2.2.2.2.2.2 rfl rfl rfl).2.2.2.2.1,
    ((renderFormulas_shows_first_records tenDistinct).2.2.2.2.2.2.2 rfl rfl rfl).2.2.2.2.2.1,
    ((renderFormulas_shows_first_records tenDistinct).2.2.2.2.2.2.2
      rfl rfl rfl).2.2.2.2.2.2.1.trans (by decide),
    ((renderFormulas_shows_first_records tenDistinct).2.2.2.2.2.2.2
      rfl rfl rfl).2.2.2.2.2.2.2⟩⟩

/-- C9: after `renderFormulas` the show-more control is displayed exactly when
the filtered list is longer than `displayedCount`; on an empty filtered list
the control is hidden, the card list is empty and the no-results state is
shown; on a non-empty one the no-results state is hidden. -/
theorem renderFormulas_showMore_and_noResults (s : State) :
    ((renderFormulas s).dom.showMoreContainerHidden = false ↔
      s.displayedCount < s.filteredFormulas.length) ∧
    (s.filteredFormulas = [] →
      (renderFormulas s).dom.showMoreContainerHidden = true ∧
      (renderFormulas s).dom.formulasContainer = [] ∧
      (renderFormulas s).dom.noResultsHidden = false) ∧
    (s.filteredFormulas ≠ [] → (renderFormulas s).dom.noResultsHidden = true) := by
  obtain ⟨hc, hn, hm⟩ := renderFormulas_dom s
  refine ⟨?_, ?_, ?_⟩
  · rw [hm]
    simp
  · intro h
    rw [hc, hn, hm]
    simp [h, formulasToShow, cardsHtml, cardsFrom, join]
  · intro h
    rw [hn]
    simp [h]

/-- Witness of C9: an empty filtered list, and a list of ten. -/
theorem renderFormulas_showMore_and_noResults_witness :
    ((initialState blankPage).filteredFormulas = [] ∧
      (renderFormulas (initialState blankPage)).dom.showMoreContainerHidden = true ∧
      (renderFormulas (initialState blankPage)).dom.formulasContainer = [] ∧
      (renderFormulas (initialState blankPage)).dom.noResultsHidden = false) ∧
    (tenFiltered.filteredFormulas ≠ [] ∧
      (renderFormulas tenFiltered).dom.noResultsHidden = true) :=
  ⟨⟨rfl, (renderFormulas_showMore_and_noResults (initialState blankPage)).2.1 rfl⟩,
   ⟨by decide, (renderFormulas_showMore_and_noResults tenFiltered).2.2 (by decide)⟩⟩

/-- C7: whatever the prior state, `handleFilterClick` and `handleSearch` leave
`showingAll` false and `displayedCount` 6 and store the new filter value, and
(the full list being an array) the filtered list is recomputed from the new
filters and rendered with the reset view state: its first six records. -/
theorem filter_change_resets_view (toLowerCase : JsString → JsString) (s : State) :
    (∀ filterType filterValue : JsString,
      (handleFilterClick toLowerCase filterType filterValue s).state.showingAll = false ∧
      (handleFilterClick toLowerCase filterType filterValue s).state.displayedCount = 6 ∧
      (handleFilterClick toLowerCase filterType filterValue s).state.currentFilters
        = setFilter s.currentFilters filterType filterValue ∧
      ∀ records, s.allFormulas = .array records →
        ∃ s', handleFilterClick toLowerCase filterType filterValue s = .normal s' ∧
          s'.filteredFormulas = records.filter
            (filterCallback toLowerCase (setFilter s.currentFilters filterType filterValue)) ∧
          s'.dom.formulasContainer = cardsHtml (s'.filteredFormulas.take 6) ∧
          (s'.dom.showMoreContainerHidden = false ↔ 6 < s'.filteredFormulas.length) ∧
          s'.dom.resultsCount
            = resultsCountText 6 s'.filteredFormulas.length (some records.length)) ∧
    (∀ value : JsString,
      setFilter s.currentFilters "subject".toList value
        = { s.currentFilters with subject := value } ∧
      setFilter s.currentFilters "level".toList value
        = { s.currentFilters with level := value }) ∧
    (∀ value : JsString,
      (handleSearch toLowerCase value s).state.showingAll = false ∧
      (handleSearch toLowerCase value s).state.displayedCount = 6 ∧
      (handleSearch toLowerCase value s).state.currentFilters
        = { s.currentFilters with search := trim (toLowerCase value) } ∧
      ∀ records, s.allFormulas = .array records →
        ∃ s', handleSearch toLowerCase value s = .normal s' ∧
          s'.filteredFormulas = records.filter
            (filterCallback toLowerCase
              { s.currentFilters with search := trim (toLowerCase value) }) ∧
          s'.dom.formulasContainer = cardsHtml (s'.filteredFormulas.take 6) ∧
          (s'.dom.showMoreContainerHidden = false ↔ 6 < s'.filteredFormulas.length) ∧
          s'.dom.resultsCount
            = resultsCountText 6 s'.filteredFormulas.length (some records.length)) := by
  refine ⟨?_, ?_, ?_⟩
  · intro filterType filterValue
    obtain ⟨h1, h2, h3⟩ := applyFilters_view toLowerCase
      { s with
        currentFilters := setFilter s.currentFilters filterType filterValue
        showingAll := false
        displayedCount := 6 }
    refine ⟨h1, h2, h3, ?_⟩
    intro records h
    exact applyFilters_reset toLowerCase
      { s with
        currentFilters := setFilter s.currentFilters filterType filterValue
        showingAll := false
        displayedCount := 6 } records h rfl rfl
  · intro value
    exact ⟨by simp [setFilter], by simp [setFilter]⟩
  · intro value
    obtain ⟨h1, h2, h3⟩ := applyFilters_view toLowerCase
      { s with
        currentFilters := { s.currentFilters with search := trim (toLowerCase value) }
        showingAll := false
        displayedCount := 6 }
    refine ⟨h1, h2, h3, ?_⟩
    intro records h
    exact applyFilters_reset toLowerCase
      { s with
        currentFilters := { s.currentFilters with search := trim (toLowerCase value) }
        showingAll := false
        displayedCount := 6 } records h rfl rfl

/-- Witness of C7: a click on the subject button `math`, and the search text
` Force `, in a state that shows all ten of its filtered records. -/
theorem filter_change_resets_view_witness :
    { tenFiltered with showingAll := true }.allFormulas = .array (List.replicate 10 newton) ∧
    (∃ s', handleFilterClick asciiLowerCase "subject".toList "math".toList
            { tenFiltered with showingAll := true } = .normal s' ∧
      s'.filteredFormulas = (List.replicate 10 newton).filter
        (filterCallback asciiLowerCase
          (setFilter tenFiltered.currentFilters "subject".toList "math".toList)) ∧
      s'.dom.formulasContainer = cardsHtml (s'.filteredFormulas.take 6) ∧
      (s'.dom.showMoreContainerHidden = false ↔ 6 < s'.filteredFormulas.length) ∧
      s'.dom.resultsCount
        = resultsCountText 6 s'.filteredFormulas.length
            (some (List.replicate 10 newton).length)) ∧
    (∃ s', handleSearch asciiLowerCase " Force ".toList
            { tenFiltered with showingAll := true } = .normal s' ∧
      s'.filteredFormulas = (List.replicate 10 newton).filter
        (filterCallback asciiLowerCase
          { tenFiltered.currentFilters with
            search := trim (asciiLowerCase " Force ".toList) }) ∧
      s'.dom.formulasContainer = cardsHtml (s'.filteredFormulas.take 6) ∧
      (s'.dom.showMoreContainerHidden = false ↔ 6 < s'.filteredFormulas.length) ∧
      s'.dom.resultsCount
        = resultsCountText 6 s'.filteredFormulas.length
            (some (List.replicate 10 newton).length)) :=
  ⟨rfl,
   ((filter_change_resets_view asciiLowerCase { tenFiltered with showingAll := true }).1
      "subject".toList "math".toList).2.2.2 (List.replicate 10 newton) rfl,
   ((filter_change_resets_view asciiLowerCase { tenFiltered with showingAll := true }).2.2
      " Force ".toList).2.2.2 (List.replicate 10 newton) rfl⟩

/-- C4, the code at its failing inputs: when `fetch` rejects, when the status is
not ok, and when the body does not decode, `loadFormulas` writes the error
message to the container, and `initializeApp` then runs `applyFilters` on the
empty list, which empties the container and shows the no-results state: the
error message is gone when `initializeApp` has finished. -/
theorem initializeApp_erases_error (toLowerCase : JsString → JsString) (dom : Dom) :
    errorHtml loadErrorMessage ≠ [] ∧
    ((loadFormulas .rejected (initialState dom)).dom.formulasContainer
        = errorHtml loadErrorMessage ∧
      ∃ s', initializeApp toLowerCase .rejected (initialState dom) = .normal s' ∧
        s'.dom.formulasContainer = [] ∧ s'.dom.noResultsHidden = false) ∧
    (∀ body : Body,
      (loadFormulas (.response false body) (initialState dom)).dom.formulasContainer
        = errorHtml loadErrorMessage ∧
      ∃ s', initializeApp toLowerCase (.response false body) (initialState dom) = .normal s' ∧
        s'.dom.formulasContainer = [] ∧ s'.dom.noResultsHidden = false) ∧
    ((loadFormulas (.response true .undecodable) (initialState dom)).dom.formulasContainer
        = errorHtml loadErrorMessage ∧
      ∃ s', initializeApp toLowerCase (.response true .undecodable) (initialState dom)
          = .normal s' ∧
        s'.dom.formulasContainer = [] ∧ s'.dom.noResultsHidden = false) := by
  refine ⟨errorHtml_ne_nil _, ⟨rfl, ?_⟩, fun body => ⟨rfl, ?_⟩, ⟨rfl, ?_⟩⟩
  · obtain ⟨s', h1, -, h3, h4⟩ := applyFilters_empty toLowerCase
      (loadFormulas .rejected (initialState dom)) rfl
    exact ⟨s', h1, h3, h4⟩
  · obtain ⟨s', h1, -, h3, h4⟩ := applyFilters_empty toLowerCase
      (loadFormulas (.response false body) (initialState dom)) rfl
    exact ⟨s', h1, h3, h4⟩
  · obtain ⟨s', h1, -, h3, h4⟩ := applyFilters_empty toLowerCase
      (loadFormulas (.response true .undecodable) (initialState dom)) rfl
    exact ⟨s', h1, h3, h4⟩

/-- C5, the code at its failing input: on a response that decodes to an object
without the key `formulas`, `loadFormulas` assigns `undefined` to `allFormulas`
before the log line throws, so the load fails (the error message is written)
with `allFormulas` left `undefined`, and the `applyFilters` of `initializeApp`
throws; the other failing paths leave `allFormulas` the empty array. -/
theorem loadFormulas_leaves_undefined (toLowerCase : JsString → JsString) (dom : Dom) :
    loadFails noListResponse = true ∧
    (loadFormulas noListResponse (initialState dom)).dom.formulasContainer
      = errorHtml loadErrorMessage ∧
    (loadFormulas noListResponse (initialState dom)).allFormulas = .undefined ∧
    (loadFormulas noListResponse (initialState dom)).allFormulas ≠ .array [] ∧
    initializeApp toLowerCase noListResponse (initialState dom)
      = .thrown (loadFormulas noListResponse (initialState dom)) ∧
    (loadFormulas .rejected (initialState dom)).allFormulas = .array [] ∧
    (∀ body, (loadFormulas (.response false body) (initialState dom)).allFormulas = .array []) ∧
    (loadFormulas (.response true .undecodable) (initialState dom)).allFormulas = .array [] ∧
    (loadFormulas (.response true (.json .null)) (initialState dom)).allFormulas = .array [] := by
  refine ⟨rfl, rfl, rfl, ?_, rfl, rfl, fun _ => rfl, rfl, rfl⟩
  intro h
  cases h

/-- C6, the code at its failing input: after the load of seven records and one
`toggleShowMore`, all seven records are shown while the counter, which only
`applyFilters` writes, still reads `Showing 6 of 7 formulas (7 total)`. -/
theorem resultsCount_stale_after_toggle (toLowerCase : JsString → JsString) :
    ∃ s1, initializeApp toLowerCase (okResponse sevenRecords) (initialState blankPage)
        = .normal s1 ∧
      s1.dom.resultsCount = "Showing 6 of 7 formulas (7 total)".toList ∧
      (toggleShowMore s1).showingAll = true ∧
      (toggleShowMore s1).filteredFormulas.length = 7 ∧
      (toggleShowMore s1).dom.formulasContainer = cardsHtml sevenRecords ∧
      (formulasToShow (toggleShowMore s1)).length = 7 ∧
      (toggleShowMore s1).dom.resultsCount = "Showing 6 of 7 formulas (7 total)".toList := by
  obtain ⟨s1, h1, h2, -, h4, h5, h6, h7, -⟩ := applyFilters_array toLowerCase
    (loadFormulas (okResponse sevenRecords) (initialState blankPage)) sevenRecords rfl
  have hf : s1.filteredFormulas = sevenRecords := by
    rw [h2]
    exact filter_no_constraint toLowerCase sevenRecords
  have hs : s1.showingAll = false := h5
  have hg := renderFormulas_globals { s1 with showingAll := !s1.showingAll }
  have hd := renderFormulas_dom { s1 with showingAll := !s1.showingAll }
  simp only [hs, Bool.not_false] at hg hd
  obtain ⟨-, hg2, -, hg4, -, hg6⟩ := hg
  have hcount : s1.dom.resultsCount = "Showing 6 of 7 formulas (7 total)".toList := by
    rw [h7]
    have : (loadFormulas (okResponse sevenRecords) (initialState blankPage)).currentFilters
        = ⟨"all".toList, "all".toList, []⟩ := rfl
    rw [this, filter_no_constraint]
    decide
  have ht : toggleShowMore s1 =
      { renderFormulas { s1 with showingAll := true } with
        dom := { (renderFormulas { s1 with showingAll := true }).dom with
          showMoreBtnText := "Show Less".toList, showMoreBtnExpanded := true } } := by
    simp only [toggleShowMore, hs, Bool.not_false, hg4, if_true]
  refine ⟨s1, h1, hcount, ?_, ?_, ?_, ?_, ?_⟩
  · rw [ht]; exact hg4
  · rw [ht]
    show (renderFormulas { s1 with showingAll := true }).filteredFormulas.length = 7
    rw [hg2, hf]
    rfl
  · rw [ht]
    show (renderFormulas { s1 with showingAll := true }).dom.formulasContainer = _
    rw [hd.1]
    simp [formulasToShow, hf]
  · rw [ht]
    simp only [formulasToShow, hg4, if_true, hg2, hf]
    rfl
  · rw [ht]
    show (renderFormulas { s1 with showingAll := true }).dom.resultsCount = _
    rw [hg6]
    exact hcount

end IntegralTurbo



